import Mathlib

/-!
Shallow embedding of the graby-ts-site-config core: the directive parser
(`parseConfigFile` in SiteConfigParser) and the hostname resolver
(`SiteConfigManager.getConfigKeyForHost` / `normalizeHostname` /
`getGlobalConfig`).  Strings are modelled as `List Char`; JavaScript string
operations (`trim`, `split('\n')`, `indexOf`, `toLowerCase`, `startsWith`,
`endsWith`, `substring`) are modelled as the corresponding list functions.
-/

namespace Graby

/-- Whitespace recognised by JavaScript `String.prototype.trim` (ASCII part). -/
def isWS (c : Char) : Bool :=
  c == ' ' || c == '\t' || c == '\n' || c == '\r' || c == Char.ofNat 11 || c == Char.ofNat 12

/-- Remove leading whitespace (left half of `trim`). -/
def trimLeft (l : List Char) : List Char :=
  l.dropWhile isWS

/-- Remove trailing whitespace (right half of `trim`). -/
def trimRight : List Char → List Char
  | [] => []
  | c :: l =>
    let r := trimRight l
    if r = [] then (if isWS c then [] else [c]) else c :: r

/-- JavaScript `str.trim()`. -/
def trim (l : List Char) : List Char :=
  trimRight (trimLeft l)

/-- ASCII lower-casing of one character, as `String.prototype.toLowerCase`
acts on the ASCII range. -/
def lcChar (c : Char) : Char :=
  if 65 ≤ c.toNat ∧ c.toNat ≤ 90 then Char.ofNat (c.toNat + 32) else c

/-- JavaScript `str.toLowerCase()` (ASCII range). -/
def lowerL (l : List Char) : List Char :=
  l.map lcChar

/-- JavaScript `content.split('\n')`. -/
def splitLines : List Char → List (List Char)
  | [] => [[]]
  | c :: cs =>
    if c = '\n' then [] :: splitLines cs
    else
      match splitLines cs with
      | [] => [[c]]
      | l :: ls => (c :: l) :: ls

/-- JavaScript `str.indexOf(c)`, as an `Option Nat`
(`none` models the `-1` result). -/
def indexOfChar (c : Char) : List Char → Option Nat
  | [] => none
  | x :: l => if x = c then some 0 else (indexOfChar c l).map (· + 1)

/-- A character matched by the directive-name part `[a-z_]+` of the
case-insensitive function-directive regular expression: a letter of either
case or the underscore. -/
def isNameChar (c : Char) : Bool :=
  (97 ≤ c.toNat && c.toNat ≤ 122) || (65 ≤ c.toNat && c.toNat ≤ 90) || c == '_'

/-- The `SiteConfig` interface from types.ts.  Every field is optional;
`none` models a field that is absent from the JavaScript object. -/
structure SiteConfig where
  title : Option (List (List Char)) := none
  body : Option (List (List Char)) := none
  date : Option (List (List Char)) := none
  author : Option (List (List Char)) := none
  strip : Option (List (List Char)) := none
  strip_id_or_class : Option (List (List Char)) := none
  strip_image_src : Option (List (List Char)) := none
  prune : Option Bool := none
  autodetect_on_failure : Option Bool := none
  insert_detected_image : Option Bool := none
  skip_json_ld : Option Bool := none
  single_page_link : Option (List (List Char)) := none
  single_page_link_in_feed : Option (List (List Char)) := none
  next_page_link : Option (List (List Char)) := none
  find_string : Option (List (List Char)) := none
  replace_string : Option (List (List Char)) := none
  http_header : Option (List (List Char × List Char)) := none
  if_page_contains : Option (List (List Char)) := none
  wrap_in : Option (List (List Char × List Char)) := none
  native_ad_clue : Option (List (List Char)) := none
  src_lazy_load_attr : Option (List (List Char)) := none
deriving DecidableEq

/-- The empty configuration object created at the top of `parseConfigFile`. -/
def emptyConfig : SiteConfig := {}

/-- `IGNORED_AUTH_TAGS` from SiteConfigParser. -/
def IGNORED_AUTH_TAGS : List (List Char) :=
  [("requires_login".data), ("login_uri".data), ("login_username_field".data),
   ("login_password_field".data), ("login_extra_fields".data), ("not_logged_in_xpath".data)]

/-- `IGNORED_TEST_TAGS` from SiteConfigParser. -/
def IGNORED_TEST_TAGS : List (List Char) :=
  [("test".data), ("test_url".data), ("test_contains".data), ("test_content".data),
   ("test_urls".data)]

/-- `IGNORED_OTHER_TAGS` from SiteConfigParser. -/
def IGNORED_OTHER_TAGS : List (List Char) :=
  [("parser".data), ("convert_double_br_tags".data), ("strip_comments".data),
   ("move_into".data), ("autodetect_next_page".data), ("dissolve".data),
   ("footnotes".data), ("skip_id_or_class".data), ("tidy".data)]

/-- `BOOLEAN_TAGS` from SiteConfigParser. -/
def BOOLEAN_TAGS : List (List Char) :=
  [("prune".data), ("autodetect_on_failure".data), ("insert_detected_image".data),
   ("skip_json_ld".data)]

/-- `KNOWN_DIRECTIVES` from SiteConfigParser (core names plus the boolean and
ignored sets, exactly as the source builds it). -/
def KNOWN_DIRECTIVES : List (List Char) :=
  [("title".data), ("body".data), ("date".data), ("author".data),
   ("strip".data), ("strip_attr".data), ("strip_id_or_class".data), ("strip_image_src".data)]
  ++ BOOLEAN_TAGS
  ++ [("single_page_link".data), ("single_page_link_in_feed".data), ("next_page_link".data),
      ("native_ad_clue".data),
      ("src_lazy_load_attr".data),
      ("find_string".data), ("replace_string".data),
      ("http_header".data), ("if_page_contains".data), ("wrap_in".data)]
  ++ IGNORED_AUTH_TAGS ++ IGNORED_TEST_TAGS ++ IGNORED_OTHER_TAGS

/-- The inline list of simple-form keys whose values are appended to a
string-list field. -/
def ARRAY_VALUE_KEYS : List (List Char) :=
  [("title".data), ("body".data), ("date".data), ("author".data), ("strip".data),
   ("strip_id_or_class".data), ("strip_image_src".data),
   ("single_page_link".data), ("single_page_link_in_feed".data), ("next_page_link".data),
   ("native_ad_clue".data),
   ("find_string".data), ("replace_string".data), ("src_lazy_load_attr".data),
   ("if_page_contains".data)]

/-- Membership in any of the three ignored-tag sets. -/
def isIgnoredTag (k : List Char) : Prop :=
  k ∈ IGNORED_AUTH_TAGS ∨ k ∈ IGNORED_TEST_TAGS ∨ k ∈ IGNORED_OTHER_TAGS

instance (k : List Char) : Decidable (isIgnoredTag k) := by
  unfold isIgnoredTag; infer_instance

/-- The boolean interpretation
`value.toLowerCase() === 'yes' || value.toLowerCase() === 'true'`. -/
def parseBoolValue (v : List Char) : Bool :=
  lowerL v == ("yes".data) || lowerL v == ("true".data)

/-- JavaScript object assignment `obj[k] = v` on a map modelled as an
association list: an existing key keeps its place and gets the new value,
a new key is appended. -/
def upsert : List (List Char × List Char) → List Char → List Char → List (List Char × List Char)
  | [], k, v => [(k, v)]
  | (k', v') :: t, k, v => if k' = k then (k', v) :: t else (k', v') :: upsert t k v

/-- `Set.add`: insertion-ordered, duplicate-free. -/
def addUnknown (u : List (List Char)) (s : List Char) : List (List Char) :=
  if s ∈ u then u else u ++ [s]

/-- The mutable state of one `parseConfigFile` run: the config object under
construction and the `unknownDirectives` set. -/
structure ParseState where
  config : SiteConfig
  unknown : List (List Char)
deriving DecidableEq

/-- Initial parse state: empty config, no unknown directives. -/
def initState : ParseState := ⟨emptyConfig, []⟩

/-- The deterministic content of the regular-expression match
`/^([a-z_]+)\(([^)]+)\):(.+)$/i` on a line: the maximal leading run of name
characters, immediately followed by an opening parenthesis, a maximal
nonempty run of characters other than the closing parenthesis, the literal
closing parenthesis and colon, and a nonempty remainder that contains no
line terminator (the dot of the pattern does not match line terminators). -/
def matchFunctionDirective (l : List Char) :
    Option (List Char × List Char × List Char) :=
  let name := l.takeWhile isNameChar
  let rest := l.dropWhile isNameChar
  match rest with
  | [] => none
  | c :: r1 =>
    if c = '(' then
      let param := r1.takeWhile (fun c' => c' != ')')
      let r2 := r1.dropWhile (fun c' => c' != ')')
      match r2 with
      | [] => none
      | c2 :: r3 =>
        if c2 = ')' then
          match r3 with
          | [] => none
          | c3 :: value =>
            if c3 = ':' then
              if name ≠ [] ∧ param ≠ [] ∧ value ≠ [] ∧ (∀ c' ∈ value, c' ≠ '\n' ∧ c' ≠ '\r')
              then some (name, param, value) else none
            else none
        else none
    else none

/-- One field update for the simple-form selector-list keys
(`config[key].push(value)`, creating the list on first use). -/
def pushArrayField (c : SiteConfig) (key value : List Char) : SiteConfig :=
  if key = ("title".data) then { c with title := some (c.title.getD [] ++ [value]) }
  else if key = ("body".data) then { c with body := some (c.body.getD [] ++ [value]) }
  else if key = ("date".data) then { c with date := some (c.date.getD [] ++ [value]) }
  else if key = ("author".data) then { c with author := some (c.author.getD [] ++ [value]) }
  else if key = ("strip".data) then { c with strip := some (c.strip.getD [] ++ [value]) }
  else if key = ("strip_id_or_class".data) then
    { c with strip_id_or_class := some (c.strip_id_or_class.getD [] ++ [value]) }
  else if key = ("strip_image_src".data) then
    { c with strip_image_src := some (c.strip_image_src.getD [] ++ [value]) }
  else if key = ("single_page_link".data) then
    { c with single_page_link := some (c.single_page_link.getD [] ++ [value]) }
  else if key = ("single_page_link_in_feed".data) then
    { c with single_page_link_in_feed := some (c.single_page_link_in_feed.getD [] ++ [value]) }
  else if key = ("next_page_link".data) then
    { c with next_page_link := some (c.next_page_link.getD [] ++ [value]) }
  else if key = ("native_ad_clue".data) then
    { c with native_ad_clue := some (c.native_ad_clue.getD [] ++ [value]) }
  else if key = ("find_string".data) then
    { c with find_string := some (c.find_string.getD [] ++ [value]) }
  else if key = ("replace_string".data) then
    { c with replace_string := some (c.replace_string.getD [] ++ [value]) }
  else if key = ("src_lazy_load_attr".data) then
    { c with src_lazy_load_attr := some (c.src_lazy_load_attr.getD [] ++ [value]) }
  else if key = ("if_page_contains".data) then
    { c with if_page_contains := some (c.if_page_contains.getD [] ++ [value]) }
  else c

/-- One field update for the simple-form boolean keys. -/
def setBoolField (c : SiteConfig) (key value : List Char) : SiteConfig :=
  if key = ("prune".data) then { c with prune := some (parseBoolValue value) }
  else if key = ("autodetect_on_failure".data) then
    { c with autodetect_on_failure := some (parseBoolValue value) }
  else if key = ("insert_detected_image".data) then
    { c with insert_detected_image := some (parseBoolValue value) }
  else if key = ("skip_json_ld".data) then
    { c with skip_json_ld := some (parseBoolValue value) }
  else c

/-- The classification chain for a simple-form `key: value` line, after the
key and the trimmed value were found nonempty. -/
def simpleClassify (st : ParseState) (key value : List Char) : ParseState :=
  if isIgnoredTag key then st
  else if key = ("strip_attr".data) then
    let s := st.config.strip.getD [] ++ [value]
    { st with config := { st.config with strip := some s } }
  else if key ∈ ARRAY_VALUE_KEYS then { st with config := pushArrayField st.config key value }
  else if key ∈ BOOLEAN_TAGS then { st with config := setBoolField st.config key value }
  else if key ∉ KNOWN_DIRECTIVES then
    { st with unknown := addUnknown st.unknown (key ++ (": ".data) ++ value) }
  else st

/-- The simple-form `key: value` handling: split on the first colon, trim key
and value, skip the line when either is empty. -/
def processSimple (st : ParseState) (trimmed : List Char) : ParseState :=
  match indexOfChar ':' trimmed with
  | none => st
  | some i =>
    let key := trim (trimmed.take i)
    let value := trim (trimmed.drop (i + 1))
    if key = [] ∨ value = [] then st
    else simpleClassify st key value

/-- The function-form `directive(param): value` handling. -/
def processFunctionDirective (st : ParseState) (directive param value : List Char) :
    ParseState :=
  let trimmedValue := trim value
  if isIgnoredTag directive then st
  else if directive = ("http_header".data) then
    let hh := upsert (st.config.http_header.getD []) (lowerL param) trimmedValue
    { st with config := { st.config with http_header := some hh } }
  else if directive = ("replace_string".data) then
    let fs := st.config.find_string.getD [] ++ [param]
    let rs := st.config.replace_string.getD [] ++ [trimmedValue]
    { st with config := { st.config with find_string := some fs, replace_string := some rs } }
  else if directive = ("wrap_in".data) then
    let wi := upsert (st.config.wrap_in.getD []) param trimmedValue
    { st with config := { st.config with wrap_in := some wi } }
  else if directive ∉ KNOWN_DIRECTIVES ∧ directive ∉ IGNORED_OTHER_TAGS then
    let entry := directive ++ ("(".data) ++ param ++ ("): ".data) ++ trimmedValue
    { st with unknown := addUnknown st.unknown entry }
  else st

/-- Processing of one raw line of the config text. -/
def processLine (st : ParseState) (line : List Char) : ParseState :=
  let trimmed := trim line
  if trimmed = [] then st
  else if trimmed.head? = some '#' then st
  else
    match matchFunctionDirective trimmed with
    | some (d, p, v) => processFunctionDirective st d p v
    | none => processSimple st trimmed

/-- The line loop of `parseConfigFile`. -/
def parseLines (content : List Char) : ParseState :=
  (splitLines content).foldl processLine initState

/-- Observable diagnostics of one parse: the unknown-directive log and the
`find_string`/`replace_string` size-mismatch warning (which carries both
sizes, as the source logs `find_size` and `replace_size`). -/
inductive Diagnostic where
  | unknownDirectives (filename : List Char) (dirs : List (List Char))
  | sizeMismatch (find_size : Nat) (replace_size : Nat)
deriving DecidableEq

/-- `parseConfigFile(content, filename)`: run the line loop, log unknown
directives, then discard mismatched `find_string`/`replace_string` lists. -/
def parseConfigFile (content filename : List Char) : SiteConfig × List Diagnostic :=
  let st := parseLines content
  let logs :=
    if st.unknown = [] then [] else [Diagnostic.unknownDirectives filename st.unknown]
  match st.config.find_string, st.config.replace_string with
  | some fs, some rs =>
    if fs.length ≠ rs.length then
      ({ st.config with find_string := some [], replace_string := some [] },
        logs ++ [Diagnostic.sizeMismatch fs.length rs.length])
    else (st.config, logs)
  | _, _ => (st.config, logs)

/-- The `SiteIndexData` shape from types.ts: membership in `domains` and
`specificSubdomains`, plus the ordered `wildcards` list. -/
structure SiteIndexData where
  domains : List (List Char)
  wildcards : List (List Char)
  specificSubdomains : List (List Char)

/-- `SiteConfigManager.normalizeHostname`: lower-casing only. -/
def normalizeHostname (hostname : List Char) : List Char :=
  lowerL hostname

/-- The loop body of the wildcard scan in `getConfigKeyForHost`. -/
def wildcardMatches (hostname wildcard : List Char) : Bool :=
  let wildcardDomain := wildcard.drop 1
  wildcardDomain.isSuffixOf hostname
    && hostname != wildcardDomain
    && hostname != (("www.".data) ++ wildcardDomain)

/-- `SiteConfigManager.getConfigKeyForHost`. -/
def getConfigKeyForHost (idx : SiteIndexData) (hostname : List Char) : Option (List Char) :=
  let h := normalizeHostname hostname
  if h ∈ idx.domains then some h
  else if ("www.".data).isPrefixOf h ∧ h.drop 4 ∈ idx.domains then some (h.drop 4)
  else if h ∈ idx.specificSubdomains then some h
  else idx.wildcards.find? (fun w => wildcardMatches h w)

/-- Stage 1 of the precedence order described by the spec: the hostname
itself is a key in `domains`. -/
def stageExactDomain (idx : SiteIndexData) (h : List Char) : Option (List Char) :=
  if h ∈ idx.domains then some h else none

/-- Stage 2 described by the spec: if the hostname starts with the literal
`www.`, the `www.`-stripped form is tested in `domains` and, when found, the
stripped form (not the original hostname) is the resolved key. -/
def stageWwwStripped (idx : SiteIndexData) (h : List Char) : Option (List Char) :=
  if h.take 4 = ("www.".data) then
    (if h.drop 4 ∈ idx.domains then some (h.drop 4) else none)
  else none

/-- Stage 3 described by the spec: the hostname itself is a key in
`specificSubdomains`. -/
def stageSpecificSubdomain (idx : SiteIndexData) (h : List Char) : Option (List Char) :=
  if h ∈ idx.specificSubdomains then some h else none

/-- Stage 4 described by the spec: the wildcard scan, in stored order. -/
def stageWildcard (idx : SiteIndexData) (h : List Char) : Option (List Char) :=
  idx.wildcards.find? (fun w => wildcardMatches h w)

/-- The resolver as the spec words it: the four stages are evaluated
strictly in order on the lower-cased hostname, the first stage that matches
wins, and otherwise none is returned. -/
def resolveKeySpec (idx : SiteIndexData) (hostname : List Char) : Option (List Char) :=
  let h := lowerL hostname
  (stageExactDomain idx h).orElse fun _ =>
    (stageWwwStripped idx h).orElse fun _ =>
      (stageSpecificSubdomain idx h).orElse fun _ =>
        stageWildcard idx h

/-- `SiteConfigManager.getGlobalConfig`: the fixed global fallback. -/
def getGlobalConfig : SiteConfig :=
  { title := some []
    author := some []
    date := some []
    body := some []
    strip := some []
    native_ad_clue := some []
    insert_detected_image := some true
    autodetect_on_failure := some true
    skip_json_ld := some true
    src_lazy_load_attr := none }

/-! ### Auxiliary lemmas about the string model -/

theorem isWS_toNat {c : Char} (h : isWS c = true) :
    c.toNat = 32 ∨ c.toNat = 9 ∨ c.toNat = 10 ∨ c.toNat = 13 ∨ c.toNat = 11 ∨ c.toNat = 12 := by
  by_cases h1 : c = ' '
  · subst h1; decide
  by_cases h2 : c = '\t'
  · subst h2; decide
  by_cases h3 : c = '\n'
  · subst h3; decide
  by_cases h4 : c = '\r'
  · subst h4; decide
  by_cases h5 : c = Char.ofNat 11
  · subst h5; decide
  by_cases h6 : c = Char.ofNat 12
  · subst h6; decide
  exfalso
  unfold isWS at h
  simp [beq_iff_eq, h1, h2, h3, h4, h5, h6] at h

theorem isNameChar_toNat {c : Char} (h : isNameChar c = true) :
    (97 ≤ c.toNat ∧ c.toNat ≤ 122) ∨ (65 ≤ c.toNat ∧ c.toNat ≤ 90) ∨ c.toNat = 95 := by
  unfold isNameChar at h
  simp only [Bool.or_eq_true, Bool.and_eq_true, decide_eq_true_eq, beq_iff_eq] at h
  rcases h with (⟨a, b⟩ | ⟨a, b⟩) | e
  · exact Or.inl ⟨a, b⟩
  · exact Or.inr (Or.inl ⟨a, b⟩)
  · subst e; exact Or.inr (Or.inr (by decide))

theorem isWS_false_of_nameChar {c : Char} (h : isNameChar c = true) : isWS c = false := by
  rcases hw : isWS c with _ | _
  · rfl
  · rcases isWS_toNat hw with h'|h'|h'|h'|h'|h' <;>
      rcases isNameChar_toNat h with (⟨a, b⟩|⟨a, b⟩|e) <;> omega

theorem ne_of_nameChar {c c' : Char} (h : isNameChar c = true) (h' : isNameChar c' = false) :
    c ≠ c' := by
  intro e; subst e; rw [h] at h'; exact Bool.noConfusion h'

theorem trimLeft_cons_of_not_ws {c : Char} {l : List Char} (h : isWS c = false) :
    trimLeft (c :: l) = c :: l := by
  simp [trimLeft, List.dropWhile_cons, h]

theorem trimLeft_cons_of_ws {c : Char} {l : List Char} (h : isWS c = true) :
    trimLeft (c :: l) = trimLeft l := by
  simp [trimLeft, List.dropWhile_cons, h]

theorem trimRight_cons (c : Char) (l : List Char) :
    trimRight (c :: l) =
      if trimRight l = [] then (if isWS c then [] else [c]) else c :: trimRight l := by
  rfl

theorem trimRight_cons_of_not_ws {c : Char} (l : List Char) (h : isWS c = false) :
    trimRight (c :: l) = c :: trimRight l := by
  rw [trimRight_cons, h]
  rcases h' : trimRight l with _ | ⟨x, xs⟩ <;> simp

theorem trimRight_append {a b : List Char} (h : trimRight b ≠ []) :
    trimRight (a ++ b) = a ++ trimRight b := by
  induction a with
  | nil => simp
  | cons c a' ih =>
    rw [List.cons_append, trimRight_cons, ih, if_neg (by simp [h]), List.cons_append]

theorem trimRight_eq_nil_iff {l : List Char} :
    trimRight l = [] ↔ ∀ c ∈ l, isWS c = true := by
  induction l with
  | nil =>
    exact ⟨fun _ c hc => absurd hc (List.not_mem_nil c), fun _ => rfl⟩
  | cons c l ih =>
    rw [trimRight_cons]
    rcases h : trimRight l with _ | ⟨x, xs⟩
    · rw [if_pos rfl]
      rcases hc : isWS c with _ | _ <;> simp_all
    · have hall : ¬ (∀ c' ∈ l, isWS c' = true) := fun hall => by simp [ih.2 hall] at h
      rw [if_neg (by simp)]
      simp_all [List.forall_mem_cons]

theorem mem_of_mem_trimRight {x : Char} {l : List Char} (h : x ∈ trimRight l) : x ∈ l := by
  induction l with
  | nil => simp [trimRight] at h
  | cons c l ih =>
    rw [trimRight_cons] at h
    split at h
    · split at h <;> simp_all
    · rcases List.mem_cons.mp h with rfl | h'
      · exact List.mem_cons_self _ _
      · exact List.mem_cons_of_mem _ (ih h')

theorem trimRight_idem (l : List Char) : trimRight (trimRight l) = trimRight l := by
  induction l with
  | nil => rfl
  | cons c l ih =>
    rw [trimRight_cons]
    rcases h : trimRight l with _ | ⟨x, xs⟩
    · rw [if_pos rfl]
      rcases hc : isWS c with _ | _ <;> simp [trimRight, hc]
    · rw [if_neg (by simp)]
      rw [h] at ih
      rw [trimRight_cons, ih, if_neg (by simp)]

theorem trimLeft_trimRight_comm (l : List Char) :
    trimLeft (trimRight l) = trimRight (trimLeft l) := by
  induction l with
  | nil => rfl
  | cons c l ih =>
    rcases hc : isWS c with _ | _
    · -- c is not whitespace
      rw [trimLeft_cons_of_not_ws hc, trimRight_cons_of_not_ws l hc,
        trimLeft_cons_of_not_ws hc]
    · -- c is whitespace
      rw [trimLeft_cons_of_ws hc, ← ih, trimRight_cons]
      rcases h : trimRight l with _ | ⟨x, xs⟩
      · rw [if_pos rfl, if_pos hc]
      · rw [if_neg (by simp), trimLeft_cons_of_ws hc]

theorem trim_trimRight (l : List Char) : trim (trimRight l) = trim l := by
  unfold trim
  rw [trimLeft_trimRight_comm, trimRight_idem, ← trimLeft_trimRight_comm]

theorem trim_cons_of_ws {c : Char} {l : List Char} (h : isWS c = true) :
    trim (c :: l) = trim l := by
  unfold trim
  rw [trimLeft_cons_of_ws h]

theorem trimRight_of_no_ws {l : List Char} (h : ∀ c ∈ l, isWS c = false) :
    trimRight l = l := by
  induction l with
  | nil => rfl
  | cons c l ih =>
    rw [trimRight_cons_of_not_ws _ (h c (List.mem_cons_self _ _)),
      ih (fun c' hc' => h c' (List.mem_cons_of_mem _ hc'))]

theorem trim_of_no_ws {l : List Char} (h : ∀ c ∈ l, isWS c = false) : trim l = l := by
  unfold trim trimLeft
  rw [List.dropWhile_eq_self_iff.mpr ?_, trimRight_of_no_ws h]
  intro hne
  have hm := h _ (List.get_mem l 0 hne)
  simpa using hm

theorem trimRight_ne_nil_of_trim_ne_nil {l : List Char} (h : trim l ≠ []) :
    trimRight l ≠ [] := by
  intro h'
  apply h
  unfold trim
  rw [← trimLeft_trimRight_comm, h']
  rfl

theorem indexOfChar_append_self {c : Char} {a r : List Char} (h : c ∉ a) :
    indexOfChar c (a ++ c :: r) = some a.length := by
  induction a with
  | nil => simp [indexOfChar]
  | cons x a' ih =>
    have hx : x ≠ c := fun e => h (e ▸ List.mem_cons_self _ _)
    rw [List.cons_append, indexOfChar, if_neg hx, ih (fun hm => h (List.mem_cons_of_mem _ hm))]
    simp

theorem splitLines_of_no_nl {l : List Char} (h : '\n' ∉ l) : splitLines l = [l] := by
  induction l with
  | nil => rfl
  | cons c l ih =>
    have hc : c ≠ '\n' := fun e => h (e ▸ List.mem_cons_self _ _)
    rw [splitLines, if_neg hc, ih (fun hm => h (List.mem_cons_of_mem _ hm))]

theorem splitLines_append {a b : List Char} (h : '\n' ∉ a) :
    splitLines (a ++ '\n' :: b) = a :: splitLines b := by
  induction a with
  | nil => simp [splitLines]
  | cons c a' ih =>
    have hc : c ≠ '\n' := fun e => h (e ▸ List.mem_cons_self _ _)
    rw [List.cons_append, splitLines, if_neg hc,
      ih (fun hm => h (List.mem_cons_of_mem _ hm))]

theorem toNat_ofNat_of_lt {n : Nat} (h : n < 55296) : (Char.ofNat n).toNat = n := by
  rw [Char.ofNat, dif_pos (Or.inl h)]
  rfl

theorem lcChar_idem (c : Char) : lcChar (lcChar c) = lcChar c := by
  by_cases h : 65 ≤ c.toNat ∧ c.toNat ≤ 90
  · have h1 : lcChar c = Char.ofNat (c.toNat + 32) := by unfold lcChar; rw [if_pos h]
    have ht : (Char.ofNat (c.toNat + 32)).toNat = c.toNat + 32 :=
      toNat_ofNat_of_lt (by omega)
    rw [h1]
    unfold lcChar
    rw [if_neg (by rw [ht]; omega)]
  · have h1 : lcChar c = c := by unfold lcChar; rw [if_neg h]
    rw [h1, h1]

theorem lowerL_idem (l : List Char) : lowerL (lowerL l) = lowerL l := by
  unfold lowerL
  rw [List.map_map]
  exact List.map_congr_left (fun c _ => lcChar_idem c)

/-! ### Symbolic evaluation of `processLine` on well-shaped lines -/

theorem matchFunctionDirective_colon (k rest : List Char)
    (hname : ∀ c ∈ k, isNameChar c = true) :
    matchFunctionDirective (k ++ ':' :: rest) = none := by
  unfold matchFunctionDirective
  rw [List.dropWhile_append_of_pos hname, List.dropWhile_cons,
    if_neg (by simp [show isNameChar ':' = false from by decide])]
  simp

theorem trimLeft_of_head_nameChar {k : List Char} (x : List Char)
    (hk : k ≠ []) (hname : ∀ c ∈ k, isNameChar c = true) :
    trimLeft (k ++ x) = k ++ x := by
  rcases k with _ | ⟨c, k'⟩
  · exact absurd rfl hk
  · rw [List.cons_append,
      trimLeft_cons_of_not_ws (isWS_false_of_nameChar (hname c (List.mem_cons_self _ _)))]

theorem processLine_simple_eq (st : ParseState) (k w : List Char)
    (hk : k ≠ []) (hname : ∀ c ∈ k, isNameChar c = true) :
    processLine st (k ++ ':' :: w)
      = if trim w = [] then st else simpleClassify st k (trim w) := by
  have hnws : ∀ c ∈ k, isWS c = false := fun c hc => isWS_false_of_nameChar (hname c hc)
  have hTR : trimRight (':' :: w) = ':' :: trimRight w :=
    trimRight_cons_of_not_ws w (by decide)
  have htrimmed : trim (k ++ ':' :: w) = k ++ ':' :: trimRight w := by
    unfold trim
    rw [trimLeft_of_head_nameChar _ hk hname, trimRight_append (by rw [hTR]; simp), hTR]
  have hne : k ++ ':' :: trimRight w ≠ [] := by simp
  have hhead : ¬ ((k ++ ':' :: trimRight w).head? = some '#') := by
    rcases k with _ | ⟨c, k'⟩
    · exact absurd rfl hk
    · rw [List.cons_append, List.head?_cons]
      intro e
      exact ne_of_nameChar (hname c (List.mem_cons_self _ _)) (by decide)
        (Option.some.inj e)
  have hmatch := matchFunctionDirective_colon k (trimRight w) hname
  have hcolon : ':' ∉ k := fun hm => by
    have := hname ':' hm
    simp [isNameChar] at this
  have hidx : indexOfChar ':' (k ++ ':' :: trimRight w) = some k.length :=
    indexOfChar_append_self hcolon
  have htake : (k ++ ':' :: trimRight w).take k.length = k := List.take_left k _
  have hdrop : (k ++ ':' :: trimRight w).drop (k.length + 1) = trimRight w := by
    have e : k ++ ':' :: trimRight w = (k ++ [':']) ++ trimRight w := by simp
    rw [e, List.drop_left' (by simp)]
  unfold processLine
  rw [htrimmed, if_neg hne, if_neg hhead, hmatch]
  unfold processSimple
  rw [hidx]
  simp only
  rw [htake, hdrop, trim_of_no_ws hnws, trim_trimRight]
  by_cases hv : trim w = []
  · rw [if_pos (Or.inr hv), if_pos hv]
  · rw [if_neg (by push_neg; exact ⟨hk, hv⟩), if_neg hv]

theorem processLine_function_eq (st : ParseState) (d p v : List Char)
    (hd : d ≠ []) (hname : ∀ c ∈ d, isNameChar c = true)
    (hp : p ≠ []) (hpc : ')' ∉ p) (hvn : '\n' ∉ v) (hvr : '\r' ∉ v)
    (hv : trimRight v ≠ []) :
    processLine st (d ++ '(' :: (p ++ ')' :: ':' :: v))
      = processFunctionDirective st d p (trimRight v) := by
  have hX : trimRight (')' :: ':' :: v) = ')' :: ':' :: trimRight v := by
    rw [trimRight_cons_of_not_ws _ (by decide), trimRight_cons_of_not_ws _ (by decide)]
  have hPX : trimRight (p ++ ')' :: ':' :: v) = p ++ ')' :: ':' :: trimRight v := by
    rw [trimRight_append (by rw [hX]; simp), hX]
  have hPar : trimRight ('(' :: (p ++ ')' :: ':' :: v))
      = '(' :: (p ++ ')' :: ':' :: trimRight v) := by
    rw [trimRight_cons_of_not_ws _ (by decide), hPX]
  have htrimmed : trim (d ++ '(' :: (p ++ ')' :: ':' :: v))
      = d ++ '(' :: (p ++ ')' :: ':' :: trimRight v) := by
    unfold trim
    rw [trimLeft_of_head_nameChar _ hd hname, trimRight_append (by rw [hPar]; simp), hPar]
  have hne : d ++ '(' :: (p ++ ')' :: ':' :: trimRight v) ≠ [] := by simp
  have hhead : ¬ ((d ++ '(' :: (p ++ ')' :: ':' :: trimRight v)).head? = some '#') := by
    rcases d with _ | ⟨c, d'⟩
    · exact absurd rfl hd
    · rw [List.cons_append, List.head?_cons]
      intro e
      exact ne_of_nameChar (hname c (List.mem_cons_self _ _)) (by decide)
        (Option.some.inj e)
  have hpbne : ∀ c ∈ p, (c != ')') = true := fun c hc => by
    simp only [bne_iff_ne, ne_eq]
    exact fun e => hpc (e ▸ hc)
  have hmem : ∀ c ∈ trimRight v, c ≠ '\n' ∧ c ≠ '\r' := fun c hc =>
    ⟨fun e => hvn (e ▸ mem_of_mem_trimRight hc), fun e => hvr (e ▸ mem_of_mem_trimRight hc)⟩
  have hTW : (d ++ '(' :: (p ++ ')' :: ':' :: trimRight v)).takeWhile isNameChar = d := by
    rw [List.takeWhile_append_of_pos hname, List.takeWhile_cons,
      if_neg (by simp [show isNameChar '(' = false from by decide]), List.append_nil]
  have hDW : (d ++ '(' :: (p ++ ')' :: ':' :: trimRight v)).dropWhile isNameChar
      = '(' :: (p ++ ')' :: ':' :: trimRight v) := by
    rw [List.dropWhile_append_of_pos hname, List.dropWhile_cons,
      if_neg (by simp [show isNameChar '(' = false from by decide])]
  have hTW2 : (p ++ ')' :: ':' :: trimRight v).takeWhile (fun c' => c' != ')') = p := by
    rw [List.takeWhile_append_of_pos hpbne, List.takeWhile_cons,
      if_neg (by simp), List.append_nil]
  have hDW2 : (p ++ ')' :: ':' :: trimRight v).dropWhile (fun c' => c' != ')')
      = ')' :: ':' :: trimRight v := by
    rw [List.dropWhile_append_of_pos hpbne, List.dropWhile_cons, if_neg (by simp)]
  have hmatch : matchFunctionDirective (d ++ '(' :: (p ++ ')' :: ':' :: trimRight v))
      = some (d, p, trimRight v) := by
    unfold matchFunctionDirective
    rw [hTW, hDW]
    simp [hTW2, hDW2, hd, hp, hv]
    exact hmem
  unfold processLine
  rw [htrimmed, if_neg hne, if_neg hhead, hmatch]

/-! ### Claim theorems -/

/-- C1: the claim states that an input with one `find_string: search` line
and zero `replace_string:` lines yields both fields present and empty plus
a size-mismatch diagnostic (this is also what the repository's own test
expects).  The code disagrees: the cleanup only runs when *both* fields are
present, so the parse returns `find_string = ["search"]`, leaves
`replace_string` absent, and emits no diagnostic.  This theorem records the
code's actual behaviour at that input. -/
theorem C1_code_behavior :
    parseConfigFile (("find_string: search\n# Missing replace_string".data)) ("test".data)
      = ({ emptyConfig with find_string := some [("search".data)] }, []) := by
  decide

/-- C3: the claim states that `replace_string(foo): ` (trailing space,
empty value) yields `find_string = ["foo"]` and `replace_string = [""]`
(this is also what the repository's own test expects).  The code disagrees:
the line is trimmed before the function-form regular expression runs, the
trailing space is removed, the `(.+)$` value group then fails to match, and
the simple-form fallback skips the line for its empty value, so the parse
returns an empty configuration.  This theorem records the code's actual
behaviour at that input. -/
theorem C3_code_behavior :
    parseConfigFile (("replace_string(foo): ".data)) ("test".data) = (emptyConfig, []) := by
  decide

/-- C9 counterexample: the claim as stated — the global default has the
three documented booleans true, *all* selector lists present and empty, and
all other fields unset — is false: `getGlobalConfig` leaves the selector
lists `strip_id_or_class`, `strip_image_src`, `single_page_link`,
`single_page_link_in_feed`, `next_page_link`, `src_lazy_load_attr` and
`if_page_contains` unset rather than empty. -/
theorem C9_counterexample :
    ¬ (getGlobalConfig.insert_detected_image = some true
       ∧ getGlobalConfig.autodetect_on_failure = some true
       ∧ getGlobalConfig.skip_json_ld = some true
       ∧ getGlobalConfig.title = some [] ∧ getGlobalConfig.body = some []
       ∧ getGlobalConfig.date = some [] ∧ getGlobalConfig.author = some []
       ∧ getGlobalConfig.strip = some [] ∧ getGlobalConfig.strip_id_or_class = some []
       ∧ getGlobalConfig.strip_image_src = some []
       ∧ getGlobalConfig.single_page_link = some []
       ∧ getGlobalConfig.single_page_link_in_feed = some []
       ∧ getGlobalConfig.next_page_link = some []
       ∧ getGlobalConfig.native_ad_clue = some []
       ∧ getGlobalConfig.src_lazy_load_attr = some []
       ∧ getGlobalConfig.if_page_contains = some []
       ∧ getGlobalConfig.prune = none ∧ getGlobalConfig.find_string = none
       ∧ getGlobalConfig.replace_string = none ∧ getGlobalConfig.http_header = none
       ∧ getGlobalConfig.wrap_in = none) := by
  intro h
  have h9 := h.2.2.2.2.2.2.2.2.1
  simp [getGlobalConfig] at h9

/-- C9 (amended): the global default configuration has
`insert_detected_image = true`, `autodetect_on_failure = true`,
`skip_json_ld = true`; the selector lists `title`, `author`, `date`,
`body`, `strip` and `native_ad_clue` are present and empty; every other
field — including the remaining selector lists — is unset. -/
theorem C9_global_default_amended :
    getGlobalConfig.insert_detected_image = some true
    ∧ getGlobalConfig.autodetect_on_failure = some true
    ∧ getGlobalConfig.skip_json_ld = some true
    ∧ getGlobalConfig.title = some [] ∧ getGlobalConfig.body = some []
    ∧ getGlobalConfig.date = some [] ∧ getGlobalConfig.author = some []
    ∧ getGlobalConfig.strip = some [] ∧ getGlobalConfig.native_ad_clue = some []
    ∧ getGlobalConfig.strip_id_or_class = none
    ∧ getGlobalConfig.strip_image_src = none
    ∧ getGlobalConfig.single_page_link = none
    ∧ getGlobalConfig.single_page_link_in_feed = none
    ∧ getGlobalConfig.next_page_link = none
    ∧ getGlobalConfig.src_lazy_load_attr = none
    ∧ getGlobalConfig.if_page_contains = none
    ∧ getGlobalConfig.prune = none
    ∧ getGlobalConfig.find_string = none
    ∧ getGlobalConfig.replace_string = none
    ∧ getGlobalConfig.http_header = none
    ∧ getGlobalConfig.wrap_in = none := by
  simp [getGlobalConfig]

/-- C6: the resolver lower-cases the hostname before any comparison and
applies no other transformation, so resolving any hostname gives the same
key as resolving its lower-cased form; in particular
`resolveKey("EXAMPLE.COM") = resolveKey("example.com")` for every index. -/
theorem C6_lowercase_normalization :
    (∀ (idx : SiteIndexData) (h : List Char),
      getConfigKeyForHost idx h = getConfigKeyForHost idx (lowerL h))
    ∧ (∀ idx : SiteIndexData,
      getConfigKeyForHost idx ("EXAMPLE.COM".data)
        = getConfigKeyForHost idx ("example.com".data)) := by
  have key : ∀ (idx : SiteIndexData) (h : List Char),
      getConfigKeyForHost idx h = getConfigKeyForHost idx (lowerL h) := by
    intro idx h
    unfold getConfigKeyForHost normalizeHostname
    rw [lowerL_idem]
  refine ⟨key, fun idx => ?_⟩
  rw [key idx ("EXAMPLE.COM".data),
    show lowerL ("EXAMPLE.COM".data) = ("example.com".data) from by decide]

/-- C5: a hostname matches a wildcard key `.suffix` iff it ends with
`suffix` as a plain string suffix (not necessarily label-aligned), is not
equal to `suffix`, and is not equal to `www.` + `suffix`; wildcards are
scanned in stored order with the first match returned; and the three
concrete examples for wildcard key `.example.org` behave as stated. -/
theorem C5_wildcard_semantics :
    (∀ suffix h : List Char,
      wildcardMatches h ('.' :: suffix) = true ↔
        (suffix <:+ h ∧ h ≠ suffix ∧ h ≠ (("www.".data) ++ suffix)))
    ∧ (∀ (ws : List (List Char)) (host : List Char),
      getConfigKeyForHost ⟨[], ws, []⟩ host
        = ws.find? (fun w => wildcardMatches (lowerL host) w))
    ∧ getConfigKeyForHost ⟨[], [((".example.org".data))], []⟩ ("sub.example.org".data)
        = some ((".example.org".data))
    ∧ getConfigKeyForHost ⟨[], [((".example.org".data))], []⟩ ("example.org".data) = none
    ∧ getConfigKeyForHost ⟨[], [((".example.org".data))], []⟩ ("www.example.org".data)
        = none := by
  refine ⟨?_, ?_, by decide, by decide, by decide⟩
  · intro suffix h
    unfold wildcardMatches
    simp [List.isSuffixOf_iff_suffix, bne_iff_ne, and_assoc]
  · intro ws host
    unfold getConfigKeyForHost normalizeHostname
    simp

/-- C4: the resolver evaluates its stages strictly in the order exact
domain match, `www.`-stripped domain match (returning the stripped form),
exact specific-subdomain match, wildcard scan, and returns none otherwise;
the first stage that matches wins.  Stated as: the source resolver equals
the stage-by-stage resolver written from the spec's wording. -/
theorem C4_resolver_precedence :
    ∀ (idx : SiteIndexData) (hostname : List Char),
      getConfigKeyForHost idx hostname = resolveKeySpec idx hostname := by
  intro idx hostname
  have hlen : (("www.".data)).length = 4 := by decide
  have hpre : ((("www.".data)).isPrefixOf (lowerL hostname) = true) ↔
      (lowerL hostname).take 4 = ("www.".data) := by
    rw [List.isPrefixOf_iff_prefix, List.prefix_iff_eq_take, hlen, eq_comm]
  unfold getConfigKeyForHost resolveKeySpec stageExactDomain stageWwwStripped
    stageSpecificSubdomain stageWildcard normalizeHostname
  by_cases h1 : lowerL hostname ∈ idx.domains
  · simp [h1]
  · by_cases h2a : (("www.".data)).isPrefixOf (lowerL hostname)
    · have htake := hpre.mp h2a
      by_cases h2b : (lowerL hostname).drop 4 ∈ idx.domains
      · simp [h1, htake, h2b, h2a]
      · by_cases h3 : lowerL hostname ∈ idx.specificSubdomains <;>
          simp [h1, htake, h2b, h3, h2a]
    · have htake : ¬ (lowerL hostname).take 4 = ("www.".data) := fun hc => h2a (hpre.mpr hc)
      by_cases h3 : lowerL hostname ∈ idx.specificSubdomains <;>
        simp [h1, htake, h3, h2a]

/-- C2: for every input, if after processing all lines both `find_string`
and `replace_string` are present with differing lengths, the parse emits a
warning diagnostic carrying both sizes and resets both lists to empty; and
consequently every returned config in which both lists are present has them
of equal length. -/
theorem C2_mismatch_reset :
    ∀ content filename : List Char,
      (∀ fs rs, (parseLines content).config.find_string = some fs →
        (parseLines content).config.replace_string = some rs →
        fs.length ≠ rs.length →
        ((parseConfigFile content filename).1.find_string = some []
          ∧ (parseConfigFile content filename).1.replace_string = some []
          ∧ Diagnostic.sizeMismatch fs.length rs.length ∈ (parseConfigFile content filename).2))
      ∧ (∀ fs rs, (parseConfigFile content filename).1.find_string = some fs →
        (parseConfigFile content filename).1.replace_string = some rs →
        fs.length = rs.length) := by
  intro content filename
  constructor
  · intro fs rs h1 h2 hne
    unfold parseConfigFile
    dsimp only
    split
    · next fs0 rs0 heqf heqr =>
        rw [h1] at heqf
        rw [h2] at heqr
        obtain rfl := Option.some.inj heqf
        obtain rfl := Option.some.inj heqr
        rw [if_pos hne]
        exact ⟨by simp, by simp, by simp⟩
    · next hno =>
        exact (hno fs rs h1 h2).elim
  · intro fs rs h1 h2
    have h12 := And.intro h1 h2
    unfold parseConfigFile at h12
    dsimp only at h12
    split at h12
    · next fs0 rs0 heqf heqr =>
        by_cases hlen : fs0.length ≠ rs0.length
        · rw [if_pos hlen] at h12
          obtain ⟨e1, e2⟩ := h12
          simp only [Prod.fst] at e1 e2
          simp at e1 e2
          rw [e1, e2]
        · rw [if_neg hlen] at h12
          obtain ⟨e1, e2⟩ := h12
          rw [heqf] at e1
          rw [heqr] at e2
          obtain rfl := Option.some.inj e1
          obtain rfl := Option.some.inj e2
          omega
    · next hno =>
        obtain ⟨e1, e2⟩ := h12
        exact (hno fs rs e1 e2).elim

/-- Witness for C2 at a concrete mismatched input: one `find_string` and
two `replace_string` entries. -/
theorem C2_mismatch_reset_witness :
    (parseConfigFile (("find_string: a\nreplace_string: b\nreplace_string: c".data))
        ("t".data)).1.find_string = some []
    ∧ (parseConfigFile (("find_string: a\nreplace_string: b\nreplace_string: c".data))
        ("t".data)).1.replace_string = some []
    ∧ Diagnostic.sizeMismatch 1 2 ∈
        (parseConfigFile (("find_string: a\nreplace_string: b\nreplace_string: c".data))
          ("t".data)).2 :=
  (C2_mismatch_reset (("find_string: a\nreplace_string: b\nreplace_string: c".data))
      (("t".data))).1
    [(("a".data))] [(("b".data)), (("c".data))] (by decide) (by decide) (by decide)

theorem parseLines_single_simple (k w : List Char)
    (hk : k ≠ []) (hname : ∀ c ∈ k, isNameChar c = true) (hnl : '\n' ∉ w)
    (hv : trim w ≠ []) :
    parseLines (k ++ ':' :: w) = simpleClassify initState k (trim w) := by
  have hnl2 : '\n' ∉ k ++ ':' :: w := by
    intro hm
    rcases List.mem_append.mp hm with hm | hm
    · exact absurd (hname _ hm) (by decide)
    · rcases List.mem_cons.mp hm with e | hm
      · exact absurd e (by decide)
      · exact hnl hm
  unfold parseLines
  rw [splitLines_of_no_nl hnl2]
  simp only [List.foldl]
  rw [processLine_simple_eq initState k w hk hname, if_neg hv]

theorem parseConfigFile_of_state (content fn : List Char) (c : SiteConfig)
    (h : parseLines content = { config := c, unknown := [] })
    (hf : c.find_string = none) :
    parseConfigFile content fn = (c, []) := by
  unfold parseConfigFile
  rw [h]
  dsimp only
  rw [if_pos rfl]
  split
  · next fs0 rs0 heqf heqr =>
      rw [hf] at heqf
      cases heqf
  · rfl

/-- C7: for each boolean key in a simple-form line with non-empty value the
stored boolean is the source's interpretation of the trimmed value, that
interpretation is true iff the lower-cased value is `yes` or `true`, and the
three concrete examples behave as stated. -/
theorem C7_boolean_parsing :
    (∀ v : List Char, '\n' ∉ v → trim v ≠ [] →
      ((parseConfigFile (("prune".data) ++ ':' :: v) ("t".data)).1.prune
          = some (parseBoolValue (trim v))
        ∧ (parseConfigFile (("autodetect_on_failure".data) ++ ':' :: v)
            ("t".data)).1.autodetect_on_failure = some (parseBoolValue (trim v))
        ∧ (parseConfigFile (("insert_detected_image".data) ++ ':' :: v)
            ("t".data)).1.insert_detected_image = some (parseBoolValue (trim v))
        ∧ (parseConfigFile (("skip_json_ld".data) ++ ':' :: v)
            ("t".data)).1.skip_json_ld = some (parseBoolValue (trim v))))
    ∧ (∀ w : List Char,
        parseBoolValue w = true ↔ (lowerL w = ("yes".data) ∨ lowerL w = ("true".data)))
    ∧ (parseConfigFile (("prune: yes".data)) ("t".data)).1.prune = some true
    ∧ (parseConfigFile (("skip_json_ld: no".data)) ("t".data)).1.skip_json_ld = some false
    ∧ (parseConfigFile (("autodetect_on_failure: true".data))
        ("t".data)).1.autodetect_on_failure = some true := by
  refine ⟨?_, ?_, by decide, by decide, by decide⟩
  · intro v hnl hv
    refine ⟨?_, ?_, ?_, ?_⟩
    · have hP := parseLines_single_simple (("prune".data)) v (by decide) (by decide) hnl hv
      have hC : simpleClassify initState (("prune".data)) (trim v)
          = { config := { emptyConfig with prune := some (parseBoolValue (trim v)) },
              unknown := [] } := by
        unfold simpleClassify
        rw [if_neg (by decide), if_neg (by decide), if_neg (by decide), if_pos (by decide)]
        unfold setBoolField
        rw [if_pos rfl]
        rfl
      rw [parseConfigFile_of_state _ _ _ (by rw [hP, hC]) rfl]
    · have hP := parseLines_single_simple (("autodetect_on_failure".data)) v
        (by decide) (by decide) hnl hv
      have hC : simpleClassify initState (("autodetect_on_failure".data)) (trim v)
          = { config :=
                { emptyConfig with autodetect_on_failure := some (parseBoolValue (trim v)) },
              unknown := [] } := by
        unfold simpleClassify
        rw [if_neg (by decide), if_neg (by decide), if_neg (by decide), if_pos (by decide)]
        unfold setBoolField
        rw [if_neg (by decide), if_pos rfl]
        rfl
      rw [parseConfigFile_of_state _ _ _ (by rw [hP, hC]) rfl]
    · have hP := parseLines_single_simple (("insert_detected_image".data)) v
        (by decide) (by decide) hnl hv
      have hC : simpleClassify initState (("insert_detected_image".data)) (trim v)
          = { config :=
                { emptyConfig with insert_detected_image := some (parseBoolValue (trim v)) },
              unknown := [] } := by
        unfold simpleClassify
        rw [if_neg (by decide), if_neg (by decide), if_neg (by decide), if_pos (by decide)]
        unfold setBoolField
        rw [if_neg (by decide), if_neg (by decide), if_pos rfl]
        rfl
      rw [parseConfigFile_of_state _ _ _ (by rw [hP, hC]) rfl]
    · have hP := parseLines_single_simple (("skip_json_ld".data)) v
        (by decide) (by decide) hnl hv
      have hC : simpleClassify initState (("skip_json_ld".data)) (trim v)
          = { config := { emptyConfig with skip_json_ld := some (parseBoolValue (trim v)) },
              unknown := [] } := by
        unfold simpleClassify
        rw [if_neg (by decide), if_neg (by decide), if_neg (by decide), if_pos (by decide)]
        unfold setBoolField
        rw [if_neg (by decide), if_neg (by decide), if_neg (by decide), if_pos rfl]
        rfl
      rw [parseConfigFile_of_state _ _ _ (by rw [hP, hC]) rfl]
  · intro w
    unfold parseBoolValue
    simp

/-- Witness for C7 at `prune` with value ` yes`. -/
theorem C7_boolean_parsing_witness :
    (parseConfigFile (("prune".data) ++ ':' :: ((" yes".data))) ("t".data)).1.prune
      = some (parseBoolValue (trim ((" yes".data)))) :=
  (C7_boolean_parsing.1 ((" yes".data)) (by decide) (by decide)).1

theorem ignored_shape {k : List Char} (h : isIgnoredTag k) :
    k ≠ [] ∧ ∀ c ∈ k, isNameChar c = true := by
  have hall : ∀ k' ∈ IGNORED_AUTH_TAGS ++ IGNORED_TEST_TAGS ++ IGNORED_OTHER_TAGS,
      k' ≠ [] ∧ k'.all isNameChar = true := by decide
  have hk : k ∈ IGNORED_AUTH_TAGS ++ IGNORED_TEST_TAGS ++ IGNORED_OTHER_TAGS := by
    rcases h with h | h | h
    · exact List.mem_append.mpr (Or.inl (List.mem_append.mpr (Or.inl h)))
    · exact List.mem_append.mpr (Or.inl (List.mem_append.mpr (Or.inr h)))
    · exact List.mem_append.mpr (Or.inr h)
  obtain ⟨h1, h2⟩ := hall k hk
  exact ⟨h1, fun c hc => List.all_eq_true.mp h2 c hc⟩

/-- C8: a line whose directive name lies in one of the three ignored-tag
sets is dropped unconditionally in both the simple and the function-like
form — the parse state (config fields and unknown-directive set alike) is
left untouched — and an input consisting only of such lines parses to an
empty configuration with no diagnostics. -/
theorem C8_ignored_tags :
    (∀ (st : ParseState) (k w : List Char), isIgnoredTag k →
      processLine st (k ++ ':' :: w) = st)
    ∧ (∀ (st : ParseState) (k p v : List Char), isIgnoredTag k →
      p ≠ [] → ')' ∉ p → '\n' ∉ v → '\x0d' ∉ v → trimRight v ≠ [] →
      processLine st (k ++ '(' :: (p ++ ')' :: ':' :: v)) = st)
    ∧ parseConfigFile
        (("parser: custom\ntidy: yes\nnot_logged_in_xpath: //div\ntest_url: http://example.com/test\nmove_into(//span): //div".data))
        ("t".data) = (emptyConfig, []) := by
  refine ⟨?_, ?_, by decide⟩
  · intro st k w hig
    obtain ⟨hk, hname⟩ := ignored_shape hig
    rw [processLine_simple_eq st k w hk hname]
    by_cases hv : trim w = []
    · rw [if_pos hv]
    · rw [if_neg hv]
      unfold simpleClassify
      rw [if_pos hig]
  · intro st k p v hig hp hpc hvn hvr hv
    obtain ⟨hk, hname⟩ := ignored_shape hig
    rw [processLine_function_eq st k p v hk hname hp hpc hvn hvr hv]
    unfold processFunctionDirective
    dsimp only
    rw [if_pos hig]

/-- Witness for C8: an ignored simple-form line leaves the state unchanged. -/
theorem C8_ignored_tags_witness :
    processLine initState (("tidy".data) ++ ':' :: ((" yes".data))) = initState :=
  C8_ignored_tags.1 initState (("tidy".data)) ((" yes".data)) (by decide)

/-- C10: the `http_header` parameter is lower-cased before being used as the
map key, so two `http_header` lines whose parameters agree up to letter case
write to the same (lower-cased) key and the later line's value overwrites
the earlier one. -/
theorem C10_http_header_lowercase :
    ∀ (p1 p2 v1 v2 l1 l2 content : List Char),
      l1 = ("http_header".data) ++ '(' :: (p1 ++ ')' :: ':' :: v1) →
      l2 = ("http_header".data) ++ '(' :: (p2 ++ ')' :: ':' :: v2) →
      content = l1 ++ '\n' :: l2 →
      p1 ≠ [] → p2 ≠ [] → ')' ∉ p1 → ')' ∉ p2 → '\n' ∉ p1 → '\n' ∉ p2 →
      '\n' ∉ v1 → '\x0d' ∉ v1 → '\n' ∉ v2 → '\x0d' ∉ v2 →
      trimRight v1 ≠ [] → trimRight v2 ≠ [] →
      lowerL p1 = lowerL p2 →
      (parseConfigFile content ("t".data)).1.http_header
        = some [(lowerL p1, trim v2)] := by
  intro p1 p2 v1 v2 l1 l2 content e1 e2 ec hp1 hp2 hpc1 hpc2 hpn1 hpn2
    hv1n hv1r hv2n hv2r hv1 hv2 hlow
  subst e1
  subst e2
  subst ec
  have hnl1 : '\n' ∉ ("http_header".data) ++ '(' :: (p1 ++ ')' :: ':' :: v1) := by
    intro hm
    rcases List.mem_append.mp hm with hm | hm
    · exact absurd hm (by decide)
    · rcases List.mem_cons.mp hm with e | hm
      · exact absurd e (by decide)
      · rcases List.mem_append.mp hm with hm | hm
        · exact hpn1 hm
        · rcases List.mem_cons.mp hm with e | hm
          · exact absurd e (by decide)
          · rcases List.mem_cons.mp hm with e | hm
            · exact absurd e (by decide)
            · exact hv1n hm
  have hnl2 : '\n' ∉ ("http_header".data) ++ '(' :: (p2 ++ ')' :: ':' :: v2) := by
    intro hm
    rcases List.mem_append.mp hm with hm | hm
    · exact absurd hm (by decide)
    · rcases List.mem_cons.mp hm with e | hm
      · exact absurd e (by decide)
      · rcases List.mem_append.mp hm with hm | hm
        · exact hpn2 hm
        · rcases List.mem_cons.mp hm with e | hm
          · exact absurd e (by decide)
          · rcases List.mem_cons.mp hm with e | hm
            · exact absurd e (by decide)
            · exact hv2n hm
  have hF1 : processFunctionDirective initState (("http_header".data)) p1 (trimRight v1)
      = { config := { emptyConfig with http_header := some [(lowerL p1, trim v1)] },
          unknown := [] } := by
    unfold processFunctionDirective
    dsimp only
    rw [if_neg (by decide), if_pos rfl, trim_trimRight]
    rfl
  have hF2 : processFunctionDirective
        { config := { emptyConfig with http_header := some [(lowerL p1, trim v1)] },
          unknown := [] }
        (("http_header".data)) p2 (trimRight v2)
      = { config := { emptyConfig with http_header := some [(lowerL p1, trim v2)] },
          unknown := [] } := by
    unfold processFunctionDirective
    dsimp only
    rw [if_neg (by decide), if_pos rfl, trim_trimRight]
    simp only [Option.getD_some]
    unfold upsert
    rw [if_pos hlow]
  have hPL : parseLines
        ((("http_header".data) ++ '(' :: (p1 ++ ')' :: ':' :: v1))
          ++ '\n' :: (("http_header".data) ++ '(' :: (p2 ++ ')' :: ':' :: v2)))
      = { config := { emptyConfig with http_header := some [(lowerL p1, trim v2)] },
          unknown := [] } := by
    unfold parseLines
    rw [splitLines_append hnl1, splitLines_of_no_nl hnl2]
    simp only [List.foldl]
    rw [processLine_function_eq initState _ p1 v1 (by decide) (by decide) hp1 hpc1
        hv1n hv1r hv1, hF1,
      processLine_function_eq _ _ p2 v2 (by decide) (by decide) hp2 hpc2
        hv2n hv2r hv2, hF2]
  rw [parseConfigFile_of_state _ _ _ hPL rfl]

/-- Witness for C10: `http_header(User-Agent)` then `http_header(USER-agent)`
end up under the single key `user-agent` with the later value. -/
theorem C10_http_header_lowercase_witness :
    (parseConfigFile
        ((("http_header".data) ++ '(' :: (("User-Agent".data) ++ ')' :: ':' :: ((" A".data))))
          ++ '\n' :: (("http_header".data)
            ++ '(' :: (("USER-agent".data) ++ ')' :: ':' :: ((" B".data)))))
        ("t".data)).1.http_header
      = some [(lowerL (("User-Agent".data)), trim ((" B".data)))] :=
  C10_http_header_lowercase (("User-Agent".data)) (("USER-agent".data))
    ((" A".data)) ((" B".data)) _ _ _ rfl rfl rfl
    (by decide) (by decide) (by decide) (by decide) (by decide) (by decide)
    (by decide) (by decide) (by decide) (by decide) (by decide) (by decide)
    (by decide)

end Graby
